import Mathlib

/-!
Shallow embedding of the custom-endpoint model-list loader of
`src/src/components/AIModelSelectorEnhanced.tsx` (open-whispr).

JavaScript strings are Lean `String`s, JSON values are the `Json`
inductive below, and JS `undefined` is `Option.none`.  The asynchronous
`loadRemoteModels` callback is split at its await boundaries into a
synchronous prologue (`startLoad`, source lines 180-221) and an atomic
completion (`completeLoad`, source lines 223-348) that reads the ref
cells (`isMountedRef`, `latestReasoningBaseRef`, `pendingBaseRef`,
`lastLoadedBaseRef`) as they stand when the response is processed;
`runLoad` composes the two for an interference-free invocation.
-/

namespace OpenWhispr

/-- JSON values as delivered by `response.json()`.  Numbers are modelled as
integers; the component never does numeric computation on them. -/
inductive Json where
  | null
  | bool (b : Bool)
  | num (n : Int)
  | str (s : String)
  | arr (items : List Json)
  | obj (fields : List (String × Json))
deriving Inhabited

/-- `payload?.field` access: `none` models JS `undefined` (missing field or
non-object receiver). -/
def Json.getField : Json → String → Option Json
  | Json.obj fields, k => (fields.find? (fun p => p.1 = k)).map (fun p => p.2)
  | _, _ => none

/-- JS truthiness of a possibly-`undefined` JSON value. -/
def jsTruthy : Option Json → Bool
  | none => false
  | some Json.null => false
  | some (Json.bool b) => b
  | some (Json.num n) => !(n = 0)
  | some (Json.str s) => !(s = "")
  | some (Json.arr _) => true
  | some (Json.obj _) => true

/-- JS `a || b` on possibly-`undefined` JSON values. -/
def jsOr (a b : Option Json) : Option Json :=
  if jsTruthy a then a else b

/-- `Array.isArray` on a possibly-`undefined` JSON value. -/
def jsIsArray : Option Json → Bool
  | some (Json.arr _) => true
  | _ => false

/-- JS strict equality `===` restricted to the shapes that occur here:
structural on primitives, `false` across types and on objects/arrays
(a freshly parsed object is never reference-equal to a stored one). -/
def Json.strictEq : Json → Json → Bool
  | Json.null, Json.null => true
  | Json.bool a, Json.bool b => a = b
  | Json.num a, Json.num b => a = b
  | Json.str a, Json.str b => a = b
  | _, _ => false

/-- Right trim, structurally recursive (JS `trimEnd` on whitespace). -/
def trimRightL : List Char → List Char
  | [] => []
  | c :: rest =>
    match trimRightL rest with
    | [] => if c.isWhitespace then [] else [c]
    | r => c :: r

/-- JS `String.prototype.trim`. -/
def jsTrim (s : String) : String :=
  String.mk (trimRightL (s.data.dropWhile Char.isWhitespace))

/-- JS `s.slice(0, 200)`. -/
def jsSlice200 (s : String) : String :=
  String.mk (s.data.take 200)

/-- Does `s` contain `p` as a contiguous run (JS `String.prototype.includes`)? -/
def listContains (p : List Char) : List Char → Bool
  | [] => p = []
  | c :: tail => p.isPrefixOf (c :: tail) || listContains p tail

/-- `s.includes(p)`. -/
def containsSubstr (s p : String) : Bool :=
  listContains p.data s.data

/-- `s.startsWith(p)`. -/
def strStartsWith (s p : String) : Bool :=
  p.data.isPrefixOf s.data

/-- Regex word character, JS `\w`. -/
def isWordChar (c : Char) : Bool :=
  c.isAlphanum || c = '_'

/-- Does the word `w` occur at the head of `s`, with word boundaries on both
sides (`prev` is the character just before `s`, if any)? -/
def wordAt (w : List Char) (prev : Option Char) (s : List Char) : Bool :=
  w.isPrefixOf s &&
    (match prev with
     | none => true
     | some c => !isWordChar c) &&
    (match (s.drop w.length).head? with
     | none => true
     | some c => !isWordChar c)

/-- Scan for a word-boundary occurrence of `w`. -/
def hasWordAux (w : List Char) (prev : Option Char) : List Char → Bool
  | [] => wordAt w prev []
  | c :: rest => wordAt w prev (c :: rest) || hasWordAux w (some c) rest

/-- JS `/\bw\b/.test(s)` for a word `w` made of word characters. -/
def hasWholeWord (s w : String) : Bool :=
  hasWordAux w.data none s.data

/-- Decimal digits of `n`, most significant first; `fuel` bounds recursion and
is always sufficient at `n + 1`. -/
def natDigitsAux : Nat → Nat → List Char
  | 0, _ => []
  | fuel + 1, n =>
    if n < 10 then [Char.ofNat (48 + n)]
    else natDigitsAux fuel (n / 10) ++ [Char.ofNat (48 + n % 10)]

/-- JS number-to-string for the status code (source line 276 and 277). -/
def natToString (n : Nat) : String :=
  String.mk (natDigitsAux (n + 1) n)

/-- Source line 19. -/
def ICON_BASE_PATH : String := "/assets/icons/providers"

/-- Source lines 32-41: each regex is an alternation of literal substrings,
tested against the lowercased `owned_by` value. -/
def OWNED_BY_ICON_RULES : List (List String × String) :=
  [(["openai", "system", "default", "gpt", "davinci"], "openai"),
   (["azure"], "openai"),
   (["anthropic", "claude"], "anthropic"),
   (["google", "gemini"], "gemini"),
   (["meta", "llama"], "llama"),
   (["mistral"], "mistral"),
   (["qwen", "ali", "tongyi"], "qwen"),
   (["openrouter", "oss"], "openai-oss")]

/-- JS `String.prototype.toLowerCase`, character-wise. -/
def jsToLower (s : String) : String :=
  String.mk (s.data.map Char.toLower)

/-- `match.test(normalized)` for one rule. -/
def ruleMatches (pats : List String) (normalized : String) : Bool :=
  pats.any (fun p => containsSubstr normalized p)

/-- Source lines 48-56 (`resolveOwnedByIcon`). -/
def resolveOwnedByIcon : Option String → Option String
  | none => none
  | some ownedBy =>
    if ownedBy = "" then none
    else
      let normalized := jsToLower ownedBy
      match OWNED_BY_ICON_RULES.find? (fun r => ruleMatches r.1 normalized) with
      | some r => some (ICON_BASE_PATH ++ "/" ++ r.2 ++ ".svg")
      | none => none

/-- Source lines 11-17 (`CloudModelOption`). -/
structure ModelOption where
  value : Json
  label : Json
  description : Option Json
  icon : Option String
  ownedBy : Option String

instance : Inhabited ModelOption :=
  ⟨⟨Json.null, Json.null, none, none, none⟩⟩

/-- Source line 298: `typeof item?.owned_by === 'string' ? item.owned_by : undefined`. -/
def ownedByOf (item : Json) : Option String :=
  match item.getField "owned_by" with
  | some (Json.str s) => some s
  | _ => none

/-- Source lines 293-308: map one raw entry to a `ModelOption`, `none` when it
lacks a truthy `id` and `name`. -/
def mapItem (item : Json) : Option ModelOption :=
  let value := jsOr (item.getField "id") (item.getField "name")
  if jsTruthy value = false then none
  else
    let ownedBy := ownedByOf item
    let icon := resolveOwnedByIcon ownedBy
    some
      { value := value.getD Json.null
        label := (jsOr (jsOr (item.getField "id") (item.getField "name")) value).getD Json.null
        description :=
          jsOr (item.getField "description")
            (match ownedBy with
             | some ob => if ob = "" then none else some (Json.str ("Owner: " ++ ob))
             | none => none)
        icon := icon
        ownedBy := ownedBy }

/-- Source lines 284-288: the raw model list from `data` or `models`. -/
def rawModelsOf (payload : Json) : List Json :=
  match payload.getField "data" with
  | some (Json.arr xs) => xs
  | _ =>
    match payload.getField "models" with
    | some (Json.arr ys) => ys
    | _ => []

/-- Source lines 281-309: `response.json().catch(() => ({}))` followed by
extraction and mapping (`filterMap` is `map` + `filter(Boolean)`). -/
def modelsFromPayload (parsed : Option Json) : List ModelOption :=
  let payload := parsed.getD (Json.obj [])
  (rawModelsOf payload).filterMap mapItem

/-- Source line 241. -/
def missingProtocolError : String :=
  "Enter a full base URL including protocol (e.g. https://server/v1)."

/-- Source line 252. -/
def httpsOnlyError : String :=
  "Only HTTPS endpoints are allowed (except localhost for testing)."

/-- Source lines 333-335. -/
def unauthorizedHintError : String :=
  "Endpoint rejected the request (401/403). Add an API key or adjust server auth settings."

/-- Source line 330. -/
def genericLoadError : String :=
  "Unable to load models from endpoint."

/-- Source line 248. -/
def isLocalhostBase (nb : String) : Bool :=
  containsSubstr nb "://localhost" || containsSubstr nb "://127.0.0.1"

/-- Source lines 274-278: the message of the error thrown on a non-2xx
response; the empty `bodyText` also covers a failed `response.text()`. -/
def httpErrorSummary (status : Nat) (statusText bodyText : String) : String :=
  jsTrim (if bodyText = "" then natToString status ++ " " ++ statusText
          else natToString status ++ " " ++ jsSlice200 bodyText)

/-- Source lines 329-338: the catch block's message handling.  `apiKey = ""`
models an unresolved key (`undefined` or empty, both falsy at line 332). -/
def surfaceCaughtError (rawMsg : String) (apiKey : String) : String :=
  let message := if rawMsg = "" then genericLoadError else rawMsg
  let unauthorized := hasWholeWord message "401" || hasWholeWord message "403"
  if unauthorized = true ∧ apiKey = "" then unauthorizedHintError else message

/-- Component state and ref cells touched by the loader (source lines
145-171): `reasoningModel` is kept as a `Json` because `setReasoningModel`
is fed `mappedModels[0].value`, which is whatever the endpoint returned. -/
structure LoaderState where
  customModelOptions : List ModelOption
  customModelsLoading : Bool
  customModelsError : Option String
  reasoningModel : Json
  lastLoadedBase : Option String
  pendingBase : Option String
  latestReasoningBase : String
  isMounted : Bool

/-- Behaviour of the network for one invocation: a parsed 2xx response
(`none` models malformed JSON), a non-2xx response, or a thrown error. -/
inductive FetchSpec where
  | ok (parsed : Option Json)
  | httpErr (status : Nat) (statusText : String) (bodyText : String)
  | netErr (msg : String)

/-- Result of one invocation: the new state and whether `fetch` was called. -/
structure CompletionResult where
  state : LoaderState
  fetchIssued : Bool

/-- The guard `isMountedRef.current && latestReasoningBaseRef.current ===
normalizedBase` wrapped around every state write (source lines 240, 251,
313, 328, 345). -/
def applyGuarded (nb : String) (st : LoaderState) (f : LoaderState → LoaderState) : LoaderState :=
  if st.isMounted = true ∧ st.latestReasoningBase = nb then f st else st

/-- Source lines 342-344: release the pending marker if it is still ours. -/
def clearPending (nb : String) (st : LoaderState) : LoaderState :=
  if st.pendingBase = some nb then { st with pendingBase := none } else st

/-- Source lines 345-347: guarded clearing of the loading flag. -/
def clearLoadingGuarded (nb : String) (st : LoaderState) : LoaderState :=
  if st.isMounted = true ∧ st.latestReasoningBase = nb then
    { st with customModelsLoading := false }
  else st

/-- Source lines 341-348: the `finally` block. -/
def applyFinally (nb : String) (st : LoaderState) : LoaderState :=
  clearLoadingGuarded nb (clearPending nb st)

/-- Source lines 223-348: everything from the first await on, executed
against the ref/state values `st` holding when the invocation resumes. -/
def completeLoad (nb : String) (apiKey : String) (fetch : FetchSpec) (st : LoaderState) :
    CompletionResult :=
  if containsSubstr nb "://" = false then
    { state := applyFinally nb (applyGuarded nb st (fun s =>
        { s with customModelsError := some missingProtocolError, customModelsLoading := false }))
      fetchIssued := false }
  else if strStartsWith nb "https://" = false ∧ isLocalhostBase nb = false then
    { state := applyFinally nb (applyGuarded nb st (fun s =>
        { s with customModelsError := some httpsOnlyError, customModelsLoading := false }))
      fetchIssued := false }
  else
    match fetch with
    | FetchSpec.ok parsed =>
      let mapped := modelsFromPayload parsed
      { state := applyFinally nb (applyGuarded nb st (fun s =>
          let s1 := { s with customModelOptions := mapped }
          let s2 :=
            if 0 < mapped.length ∧
                mapped.any (fun m => Json.strictEq m.value s1.reasoningModel) = false then
              { s1 with reasoningModel := (mapped.headD default).value }
            else s1
          { s2 with customModelsError := none, lastLoadedBase := some nb }))
        fetchIssued := true }
    | FetchSpec.httpErr status statusText bodyText =>
      { state := applyFinally nb (applyGuarded nb st (fun s =>
          { s with
              customModelsError :=
                some (surfaceCaughtError (httpErrorSummary status statusText bodyText) apiKey)
              customModelOptions := [] }))
        fetchIssued := true }
    | FetchSpec.netErr msg =>
      { state := applyFinally nb (applyGuarded nb st (fun s =>
          { s with
              customModelsError := some (surfaceCaughtError msg apiKey)
              customModelOptions := [] }))
        fetchIssued := true }

/-- Modelled from the spec: `normalizeBaseUrl` lives in
`src/config/constants.ts`, which is not under `src/`; the spec says the
normalizer trims the raw value and strips the trailing slash and is
idempotent.  We trim JS-style and drop every trailing slash character. -/
def normalizeBaseUrl (raw : String) : String :=
  let t := jsTrim raw
  String.mk ((t.data.reverse.dropWhile (fun c => c = '/')).reverse)

/-- How the synchronous prologue of `loadRemoteModels` returned. -/
inductive StartOutcome where
  | clearedEmpty
  | skippedLoaded
  | skippedPending
  | proceeded (nb : String)

/-- Source lines 180-221: the synchronous prologue of `loadRemoteModels`,
up to (not including) the first `await`. -/
def startLoad (cloudReasoningBaseUrl : String) (baseOverride : Option String) (force : Bool)
    (st : LoaderState) : LoaderState × StartOutcome :=
  let rawBase := baseOverride.getD cloudReasoningBaseUrl
  let nb := normalizeBaseUrl rawBase
  if nb = "" then
    let st1 :=
      if st.isMounted = true then
        { st with customModelsLoading := false, customModelsError := none,
                  customModelOptions := [] }
      else st
    (st1, StartOutcome.clearedEmpty)
  else if force = false ∧ st.lastLoadedBase = some nb then
    (st, StartOutcome.skippedLoaded)
  else if force = false ∧ st.pendingBase = some nb then
    (st, StartOutcome.skippedPending)
  else
    let st1 :=
      if baseOverride.isSome then { st with latestReasoningBase := nb } else st
    let st2 := { st1 with pendingBase := some nb }
    let st3 :=
      if st2.isMounted = true then
        { st2 with customModelsLoading := true, customModelsError := none,
                   customModelOptions := [] }
      else st2
    (st3, StartOutcome.proceeded nb)

/-- One full invocation with no interleaved writes to the refs between the
prologue and the completion. -/
def runLoad (cloudReasoningBaseUrl : String) (baseOverride : Option String) (force : Bool)
    (apiKey : String) (fetch : FetchSpec) (st : LoaderState) : CompletionResult :=
  match startLoad cloudReasoningBaseUrl baseOverride force st with
  | (st1, StartOutcome.proceeded nb) => completeLoad nb apiKey fetch st1
  | (st1, _) => { state := st1, fetchIssued := false }

/-- Source lines 352-355. -/
def isCustomBaseDirty (customBaseInput cloudReasoningBaseUrl : String) : Bool :=
  !(jsTrim customBaseInput = jsTrim cloudReasoningBaseUrl)

/-- Source lines 356-361 (`displayedCustomModels`). -/
def displayedCustomModels (customBaseInput cloudReasoningBaseUrl : String)
    (customModelOptions : List ModelOption) : List ModelOption :=
  if isCustomBaseDirty customBaseInput cloudReasoningBaseUrl = true then []
  else customModelOptions

/-- First run of `l` after the first occurrence of `marker`, if any. -/
def afterMarker (marker : List Char) : List Char → Option (List Char)
  | [] => none
  | c :: rest =>
    if marker.isPrefixOf (c :: rest) then some ((c :: rest).drop marker.length)
    else afterMarker marker rest

/-- Host component of a URL in the ordinary sense (text between the first
`://` and the next `/`).  Used only to state claims about hosts; the source
never parses the host. -/
def urlHost (u : String) : String :=
  match afterMarker [':', '/', '/'] u.data with
  | some rest => String.mk (rest.takeWhile (fun c => !(c = '/')))
  | none => ""

/-- A live component state whose latest requested base is `nb`, used to
instantiate theorems at concrete inputs. -/
def probeState (nb : String) : LoaderState :=
  { customModelOptions := []
    customModelsLoading := true
    customModelsError := none
    reasoningModel := Json.str "m0"
    lastLoadedBase := none
    pendingBase := some nb
    latestReasoningBase := nb
    isMounted := true }

theorem applyGuarded_of_not (nb : String) (st : LoaderState) (f : LoaderState → LoaderState)
    (h : ¬(st.isMounted = true ∧ st.latestReasoningBase = nb)) :
    applyGuarded nb st f = st :=
  if_neg h

theorem applyGuarded_of_guard (nb : String) (st : LoaderState) (f : LoaderState → LoaderState)
    (hm : st.isMounted = true) (hl : st.latestReasoningBase = nb) :
    applyGuarded nb st f = f st :=
  if_pos ⟨hm, hl⟩

theorem clearPending_fields (nb : String) (st : LoaderState) :
    (clearPending nb st).customModelOptions = st.customModelOptions ∧
    (clearPending nb st).customModelsLoading = st.customModelsLoading ∧
    (clearPending nb st).customModelsError = st.customModelsError ∧
    (clearPending nb st).reasoningModel = st.reasoningModel ∧
    (clearPending nb st).lastLoadedBase = st.lastLoadedBase ∧
    (clearPending nb st).isMounted = st.isMounted ∧
    (clearPending nb st).latestReasoningBase = st.latestReasoningBase := by
  unfold clearPending
  split <;> simp

theorem clearLoadingGuarded_fields (nb : String) (st : LoaderState) :
    (clearLoadingGuarded nb st).customModelOptions = st.customModelOptions ∧
    (clearLoadingGuarded nb st).customModelsError = st.customModelsError ∧
    (clearLoadingGuarded nb st).reasoningModel = st.reasoningModel ∧
    (clearLoadingGuarded nb st).lastLoadedBase = st.lastLoadedBase ∧
    (clearLoadingGuarded nb st).pendingBase = st.pendingBase ∧
    (clearLoadingGuarded nb st).isMounted = st.isMounted ∧
    (clearLoadingGuarded nb st).latestReasoningBase = st.latestReasoningBase := by
  unfold clearLoadingGuarded
  split <;> simp

theorem applyFinally_fields (nb : String) (st : LoaderState) :
    (applyFinally nb st).customModelOptions = st.customModelOptions ∧
    (applyFinally nb st).customModelsError = st.customModelsError ∧
    (applyFinally nb st).reasoningModel = st.reasoningModel ∧
    (applyFinally nb st).lastLoadedBase = st.lastLoadedBase ∧
    (applyFinally nb st).isMounted = st.isMounted ∧
    (applyFinally nb st).latestReasoningBase = st.latestReasoningBase := by
  unfold applyFinally
  have h1 := clearPending_fields nb st
  have h2 := clearLoadingGuarded_fields nb (clearPending nb st)
  exact ⟨h2.1.trans h1.1, h2.2.1.trans h1.2.2.1, h2.2.2.1.trans h1.2.2.2.1,
    h2.2.2.2.1.trans h1.2.2.2.2.1, h2.2.2.2.2.2.1.trans h1.2.2.2.2.2.1,
    h2.2.2.2.2.2.2.trans h1.2.2.2.2.2.2⟩

theorem applyFinally_loading_of_guard_false (nb : String) (st : LoaderState)
    (h : ¬(st.isMounted = true ∧ st.latestReasoningBase = nb)) :
    (applyFinally nb st).customModelsLoading = st.customModelsLoading := by
  have h1 := clearPending_fields nb st
  have hg : ¬((clearPending nb st).isMounted = true ∧
      (clearPending nb st).latestReasoningBase = nb) := by
    rw [h1.2.2.2.2.2.1, h1.2.2.2.2.2.2]
    exact h
  unfold applyFinally clearLoadingGuarded
  rw [if_neg hg]
  exact h1.2.1

theorem applyFinally_loading_of_guard (nb : String) (st : LoaderState)
    (hm : st.isMounted = true) (hl : st.latestReasoningBase = nb) :
    (applyFinally nb st).customModelsLoading = false := by
  have h1 := clearPending_fields nb st
  have hg : (clearPending nb st).isMounted = true ∧
      (clearPending nb st).latestReasoningBase = nb := by
    rw [h1.2.2.2.2.2.1, h1.2.2.2.2.2.2]
    exact ⟨hm, hl⟩
  unfold applyFinally clearLoadingGuarded
  rw [if_pos hg]

theorem applyFinally_pending_of_eq (nb : String) (st : LoaderState)
    (h : st.pendingBase = some nb) :
    (applyFinally nb st).pendingBase = none := by
  unfold applyFinally
  rw [(clearLoadingGuarded_fields nb (clearPending nb st)).2.2.2.2.1]
  unfold clearPending
  rw [if_pos h]

/-- C1: a completion for base B1 that resumes when the latest requested base
is some different B2 (or after the component unmounted) does not change the
options, the error, the selected reasoning model, or the last-loaded cache
key; equivalently, a response is applied only when its normalized base still
equals the latest requested base at completion time and the component is
still mounted. -/
theorem c1_stale_response_not_applied (B1 B2 apiKey : String) (fetch : FetchSpec)
    (st : LoaderState) (hB2 : st.latestReasoningBase = B2)
    (h : B1 ≠ B2 ∨ st.isMounted = false) :
    (completeLoad B1 apiKey fetch st).state.customModelOptions = st.customModelOptions ∧
    (completeLoad B1 apiKey fetch st).state.customModelsError = st.customModelsError ∧
    (completeLoad B1 apiKey fetch st).state.reasoningModel = st.reasoningModel ∧
    (completeLoad B1 apiKey fetch st).state.lastLoadedBase = st.lastLoadedBase := by
  have hg : ¬(st.isMounted = true ∧ st.latestReasoningBase = B1) := by
    rcases h with h | h
    · rintro ⟨-, hl⟩
      exact h (hB2 ▸ hl).symm
    · rintro ⟨hm, -⟩
      rw [h] at hm
      exact Bool.false_ne_true hm
  have key : ∀ f : LoaderState → LoaderState,
      (applyFinally B1 (applyGuarded B1 st f)).customModelOptions = st.customModelOptions ∧
      (applyFinally B1 (applyGuarded B1 st f)).customModelsError = st.customModelsError ∧
      (applyFinally B1 (applyGuarded B1 st f)).reasoningModel = st.reasoningModel ∧
      (applyFinally B1 (applyGuarded B1 st f)).lastLoadedBase = st.lastLoadedBase := by
    intro f
    rw [applyGuarded_of_not _ _ _ hg]
    have hfin := applyFinally_fields B1 st
    exact ⟨hfin.1, hfin.2.1, hfin.2.2.1, hfin.2.2.2.1⟩
  unfold completeLoad
  split
  · exact key _
  split
  · exact key _
  cases fetch with
  | ok parsed => exact key _
  | httpErr status statusText bodyText => exact key _
  | netErr msg => exact key _

theorem c1_stale_response_not_applied_witness :
    (completeLoad "https://b1.example" "" (FetchSpec.ok none)
        (probeState "https://b2.example")).state.customModelOptions
      = (probeState "https://b2.example").customModelOptions ∧
    (completeLoad "https://b1.example" "" (FetchSpec.ok none)
        (probeState "https://b2.example")).state.customModelsError
      = (probeState "https://b2.example").customModelsError ∧
    (completeLoad "https://b1.example" "" (FetchSpec.ok none)
        (probeState "https://b2.example")).state.reasoningModel
      = (probeState "https://b2.example").reasoningModel ∧
    (completeLoad "https://b1.example" "" (FetchSpec.ok none)
        (probeState "https://b2.example")).state.lastLoadedBase
      = (probeState "https://b2.example").lastLoadedBase :=
  c1_stale_response_not_applied "https://b1.example" "https://b2.example" ""
    (FetchSpec.ok none) (probeState "https://b2.example") rfl (Or.inl (by decide))

/-- C2: overlapping or repeated `loadRemoteModels` calls with `force=false`
and the same normalized base collapse to one fetch.  (1) A call that
proceeds records its base as pending; (2) a later call finding that base
pending returns with no state change and no fetch; (3) likewise when the
base equals the last successfully loaded base; (4) the cleanup step clears
the pending marker for that base on every completion outcome (success,
error, or early return after it was set). -/
theorem c2_dedup_single_fetch :
    (∀ cloudBase baseOverride force st st1 nb,
        startLoad cloudBase baseOverride force st = (st1, StartOutcome.proceeded nb) →
        st1.pendingBase = some nb) ∧
    (∀ cloudBase baseOverride apiKey fetch st nb,
        normalizeBaseUrl (baseOverride.getD cloudBase) = nb → ¬(nb = "") →
        st.pendingBase = some nb →
        runLoad cloudBase baseOverride false apiKey fetch st =
          { state := st, fetchIssued := false }) ∧
    (∀ cloudBase baseOverride apiKey fetch st nb,
        normalizeBaseUrl (baseOverride.getD cloudBase) = nb → ¬(nb = "") →
        st.lastLoadedBase = some nb →
        runLoad cloudBase baseOverride false apiKey fetch st =
          { state := st, fetchIssued := false }) ∧
    (∀ nb apiKey fetch st, st.pendingBase = some nb →
        (completeLoad nb apiKey fetch st).state.pendingBase = none) := by
  refine ⟨?_, ?_, ?_, ?_⟩
  · intro cloudBase baseOverride force st st1 nb h
    simp only [startLoad] at h
    split at h
    · simp at h
    · split at h
      · simp at h
      · split at h
        · simp at h
        · obtain ⟨h1, h2⟩ := Prod.mk.injEq .. ▸ h
          cases h2
          subst h1
          split <;> first | rfl | (split <;> rfl)
  · intro cloudBase baseOverride apiKey fetch st nb hnorm hne hpend
    simp only [runLoad, startLoad, hnorm]
    rw [if_neg hne]
    by_cases hl : st.lastLoadedBase = some nb
    · rw [if_pos ⟨trivial, hl⟩]
    · rw [if_neg (fun hc => hl hc.2), if_pos ⟨trivial, hpend⟩]
  · intro cloudBase baseOverride apiKey fetch st nb hnorm hne hlast
    simp only [runLoad, startLoad, hnorm]
    rw [if_neg hne, if_pos ⟨trivial, hlast⟩]
  · intro nb apiKey fetch st hpend
    have key2 : ∀ f : LoaderState → LoaderState, (∀ s, (f s).pendingBase = s.pendingBase) →
        (applyFinally nb (applyGuarded nb st f)).pendingBase = none := by
      intro f hf
      unfold applyGuarded
      split
      · exact applyFinally_pending_of_eq nb _ ((hf st).trans hpend)
      · exact applyFinally_pending_of_eq nb st hpend
    unfold completeLoad
    split
    · exact key2 _ (fun s => rfl)
    split
    · exact key2 _ (fun s => rfl)
    cases fetch with
    | ok parsed =>
      refine key2 _ (fun s => ?_)
      dsimp only []
      split <;> rfl
    | httpErr status statusText bodyText => exact key2 _ (fun s => rfl)
    | netErr msg => exact key2 _ (fun s => rfl)

theorem c2_dedup_single_fetch_witness :
    runLoad "https://api.example.com/v1" none false "" (FetchSpec.ok none)
        (probeState "https://api.example.com/v1") =
      { state := probeState "https://api.example.com/v1", fetchIssued := false } ∧
    (completeLoad "https://api.example.com/v1" "" (FetchSpec.ok none)
        (probeState "https://api.example.com/v1")).state.pendingBase = none :=
  ⟨c2_dedup_single_fetch.2.1 "https://api.example.com/v1" none "" (FetchSpec.ok none)
      (probeState "https://api.example.com/v1") "https://api.example.com/v1"
      (by decide) (by decide) rfl,
   c2_dedup_single_fetch.2.2.2 "https://api.example.com/v1" "" (FetchSpec.ok none)
      (probeState "https://api.example.com/v1") rfl⟩

/-- C8: whenever the custom base field's trimmed value differs from the
saved base URL's trimmed value, the displayed model list is empty; when the
two trimmed values agree, the displayed list is exactly the loaded custom
model options. -/
theorem c8_dirty_base_display (input saved : String) (opts : List ModelOption) :
    (¬(jsTrim input = jsTrim saved) → displayedCustomModels input saved opts = []) ∧
    (jsTrim input = jsTrim saved → displayedCustomModels input saved opts = opts) := by
  constructor
  · intro h
    unfold displayedCustomModels
    rw [if_pos (by simp [isCustomBaseDirty, h])]
  · intro h
    unfold displayedCustomModels
    rw [if_neg (by simp [isCustomBaseDirty, h])]

theorem c8_dirty_base_display_witness :
    displayedCustomModels "https://new.example" "https://old.example" [default] = [] ∧
    displayedCustomModels " https://same.example " "https://same.example" [default] = [default] :=
  ⟨(c8_dirty_base_display "https://new.example" "https://old.example" [default]).1 (by decide),
   (c8_dirty_base_display " https://same.example " "https://same.example" [default]).2 (by decide)⟩

/-- C9: for a base containing a scheme separator, the fetch is issued exactly
when the string starts with "https://" or contains "://localhost" or
"://127.0.0.1" anywhere; the host component is never inspected, so a
non-HTTPS URL whose host is not loopback but whose query contains such a
substring is let through to the fetch. -/
theorem c9_syntactic_security_guard :
    (∀ nb apiKey fetch st, containsSubstr nb "://" = true →
        (completeLoad nb apiKey fetch st).fetchIssued =
          (strStartsWith nb "https://" || containsSubstr nb "://localhost" ||
            containsSubstr nb "://127.0.0.1")) ∧
    strStartsWith "http://attacker.example/cb?next=https://localhost/admin" "https://" = false ∧
    urlHost "http://attacker.example/cb?next=https://localhost/admin" = "attacker.example" ∧
    (completeLoad "http://attacker.example/cb?next=https://localhost/admin" ""
        (FetchSpec.ok none)
        (probeState "http://attacker.example/cb?next=https://localhost/admin")).fetchIssued
      = true := by
  refine ⟨?_, by decide, by decide, by decide⟩
  intro nb apiKey fetch st h
  unfold completeLoad
  rw [if_neg (by simp [h])]
  by_cases hs : strStartsWith nb "https://" = false ∧ isLocalhostBase nb = false
  · rw [if_pos hs]
    obtain ⟨h1, h2⟩ := hs
    simp only [isLocalhostBase, Bool.or_eq_false_iff] at h2
    simp [h1, h2.1, h2.2]
  · rw [if_neg hs]
    have hor : (strStartsWith nb "https://" || containsSubstr nb "://localhost" ||
        containsSubstr nb "://127.0.0.1") = true := by
      cases hb1 : strStartsWith nb "https://" <;>
        cases hb2 : containsSubstr nb "://localhost" <;>
          cases hb3 : containsSubstr nb "://127.0.0.1" <;>
            simp_all [isLocalhostBase]
    cases fetch <;> simp [hor]

theorem c9_syntactic_security_guard_witness :
    (completeLoad "http://x.example" "" (FetchSpec.ok none)
        (probeState "http://x.example")).fetchIssued =
      (strStartsWith "http://x.example" "https://" ||
        containsSubstr "http://x.example" "://localhost" ||
        containsSubstr "http://x.example" "://127.0.0.1") :=
  c9_syntactic_security_guard.1 "http://x.example" "" (FetchSpec.ok none)
    (probeState "http://x.example") (by decide)

/-- C3 counterexample: a normalized base whose scheme is not https and whose
host is not a loopback address, yet which contains "://localhost" later in
the URL, is not rejected: the fetch is issued and the https-only error is
not set, contradicting the claim as stated. -/
theorem c3_counterexample :
    normalizeBaseUrl "http://evil.example.com/a://localhost"
      = "http://evil.example.com/a://localhost" ∧
    strStartsWith "http://evil.example.com/a://localhost" "https://" = false ∧
    urlHost "http://evil.example.com/a://localhost" = "evil.example.com" ∧
    (completeLoad "http://evil.example.com/a://localhost" "" (FetchSpec.ok none)
        (probeState "http://evil.example.com/a://localhost")).fetchIssued = true ∧
    ¬((completeLoad "http://evil.example.com/a://localhost" "" (FetchSpec.ok none)
        (probeState "http://evil.example.com/a://localhost")).state.customModelsError
      = some httpsOnlyError) :=
  ⟨by decide, by decide, by decide, by decide, by decide⟩

/-- C3 (amended): for every normalized base containing "://" that does not
start with "https://" and does not contain "://localhost" or "://127.0.0.1"
as a substring, `loadRemoteModels` rejects before issuing any network call,
setting the error exactly to the https-only message and clearing the
loading flag. -/
theorem c3_amended_insecure_base_rejected (nb apiKey : String) (fetch : FetchSpec)
    (st : LoaderState) (hscheme : containsSubstr nb "://" = true)
    (hhttps : strStartsWith nb "https://" = false) (hlocal : isLocalhostBase nb = false)
    (hm : st.isMounted = true) (hl : st.latestReasoningBase = nb) :
    (completeLoad nb apiKey fetch st).state.customModelsError = some httpsOnlyError ∧
    (completeLoad nb apiKey fetch st).state.customModelsLoading = false ∧
    (completeLoad nb apiKey fetch st).fetchIssued = false := by
  unfold completeLoad
  rw [if_neg (by simp [hscheme]), if_pos ⟨hhttps, hlocal⟩]
  rw [applyGuarded_of_guard _ _ _ hm hl]
  refine ⟨?_, ?_, rfl⟩
  · exact (applyFinally_fields nb _).2.1
  · exact applyFinally_loading_of_guard nb _ hm hl

theorem c3_amended_insecure_base_rejected_witness :
    (completeLoad "http://remote.example.com" "" (FetchSpec.ok none)
        (probeState "http://remote.example.com")).state.customModelsError
      = some httpsOnlyError ∧
    (completeLoad "http://remote.example.com" "" (FetchSpec.ok none)
        (probeState "http://remote.example.com")).state.customModelsLoading = false ∧
    (completeLoad "http://remote.example.com" "" (FetchSpec.ok none)
        (probeState "http://remote.example.com")).fetchIssued = false :=
  c3_amended_insecure_base_rejected "http://remote.example.com" "" (FetchSpec.ok none)
    (probeState "http://remote.example.com") (by decide) (by decide) (by decide) rfl rfl

/-- C4: a base that normalizes to the empty string makes `loadRemoteModels`
clear options, error, and loading and return with no fetch; a normalized
base without a "://" scheme separator (not already loaded or pending) makes
it set the prompt-for-full-URL error and return with no fetch. -/
theorem c4_empty_or_schemeless_no_fetch :
    (∀ cloudBase baseOverride force apiKey fetch st,
        st.isMounted = true → normalizeBaseUrl (baseOverride.getD cloudBase) = "" →
        runLoad cloudBase baseOverride force apiKey fetch st =
          { state := { st with customModelsLoading := false, customModelsError := none,
                               customModelOptions := [] }
            fetchIssued := false }) ∧
    (∀ cloudBase raw force apiKey fetch st nb,
        normalizeBaseUrl raw = nb → containsSubstr nb "://" = false → ¬(nb = "") →
        st.isMounted = true → ¬(st.lastLoadedBase = some nb) → ¬(st.pendingBase = some nb) →
        (runLoad cloudBase (some raw) force apiKey fetch st).state.customModelsError
            = some missingProtocolError ∧
        (runLoad cloudBase (some raw) force apiKey fetch st).state.customModelsLoading = false ∧
        (runLoad cloudBase (some raw) force apiKey fetch st).fetchIssued = false) := by
  constructor
  · intro cloudBase baseOverride force apiKey fetch st hm hnorm
    simp only [runLoad, startLoad, hnorm]
    rw [if_pos (by trivial), if_pos hm]
  · intro cloudBase raw force apiKey fetch st nb hnorm hscheme hne hm hlast hpend
    simp only [runLoad, startLoad, Option.getD, hnorm]
    rw [if_neg hne, if_neg (fun hc => hlast hc.2), if_neg (fun hc => hpend hc.2)]
    simp only [Option.isSome_some, eq_self_iff_true, if_true]
    rw [if_pos hm]
    unfold completeLoad
    rw [if_pos hscheme]
    rw [applyGuarded_of_guard nb
      { customModelOptions := [], customModelsLoading := true, customModelsError := none,
        reasoningModel := st.reasoningModel, lastLoadedBase := st.lastLoadedBase,
        pendingBase := some nb, latestReasoningBase := nb, isMounted := st.isMounted }
      _ hm rfl]
    refine ⟨?_, ?_, rfl⟩
    · exact (applyFinally_fields nb _).2.1
    · exact applyFinally_loading_of_guard nb _ hm rfl

theorem c4_empty_or_schemeless_no_fetch_witness :
    runLoad "   " none false "" (FetchSpec.ok none) (probeState "https://x.example") =
      { state :=
          { probeState "https://x.example" with
              customModelsLoading := false
              customModelsError := none
              customModelOptions := [] }
        fetchIssued := false } ∧
    (runLoad "" (some "api.example.com/v1") false "" (FetchSpec.ok none)
        (probeState "https://x.example")).state.customModelsError
      = some missingProtocolError ∧
    (runLoad "" (some "api.example.com/v1") false "" (FetchSpec.ok none)
        (probeState "https://x.example")).fetchIssued = false :=
  ⟨c4_empty_or_schemeless_no_fetch.1 "   " none false "" (FetchSpec.ok none)
      (probeState "https://x.example") rfl (by decide),
   (c4_empty_or_schemeless_no_fetch.2 "" "api.example.com/v1" false "" (FetchSpec.ok none)
      (probeState "https://x.example") "api.example.com/v1" (by decide) (by decide) (by decide)
      rfl (by decide) (by decide)).1,
   (c4_empty_or_schemeless_no_fetch.2 "" "api.example.com/v1" false "" (FetchSpec.ok none)
      (probeState "https://x.example") "api.example.com/v1" (by decide) (by decide) (by decide)
      rfl (by decide) (by decide)).2.2⟩

theorem trimRightL_cons_nonws (c : Char) (hc : c.isWhitespace = false) (l : List Char) :
    trimRightL (c :: l) = c :: trimRightL l := by
  simp only [trimRightL]
  split <;> simp_all

theorem trimRightL_cons_shape (c : Char) (l : List Char) :
    trimRightL (c :: l) = [] ∨ ∃ r, trimRightL (c :: l) = c :: r := by
  simp only [trimRightL]
  split
  · by_cases hc : c.isWhitespace
    · left
      simp [hc]
    · right
      refine ⟨[], ?_⟩
      simp [hc]
  · right
    exact ⟨_, rfl⟩

theorem trimRightL_append_all_nonws (d l : List Char)
    (hd : ∀ c ∈ d, c.isWhitespace = false) :
    trimRightL (d ++ l) = d ++ trimRightL l := by
  induction d with
  | nil => rfl
  | cons c dtl ih =>
    rw [List.cons_append, trimRightL_cons_nonws c (hd c (by simp)) _,
      ih (fun a ha => hd a (by simp [ha])), List.cons_append]

theorem trimRightL_suffix_dropWhile (l : List Char) :
    ∃ pre, trimRightL l = pre ++ trimRightL (l.dropWhile Char.isWhitespace) := by
  induction l with
  | nil => exact ⟨[], rfl⟩
  | cons c l ih =>
    by_cases hc : c.isWhitespace = true
    · rw [List.dropWhile_cons, if_pos hc]
      obtain ⟨pre, hpre⟩ := ih
      cases h : trimRightL l with
      | nil =>
        have hT : trimRightL (l.dropWhile Char.isWhitespace) = [] :=
          (List.append_eq_nil.mp (h ▸ hpre).symm).2
        refine ⟨[], ?_⟩
        have : trimRightL (c :: l) = [] := by
          simp only [trimRightL, h]
          simp [hc]
        rw [this, hT]
        rfl
      | cons a as =>
        refine ⟨c :: pre, ?_⟩
        have : trimRightL (c :: l) = c :: trimRightL l := by
          simp only [trimRightL, h]
        rw [this, hpre, List.cons_append]
    · rw [List.dropWhile_cons, if_neg hc]
      exact ⟨[], rfl⟩

theorem ofNat_digit_nonws (d : Nat) (hd : d < 10) :
    (Char.ofNat (48 + d)).isWhitespace = false := by
  interval_cases d <;> decide

theorem natDigitsAux_nonws : ∀ fuel n, n < fuel →
    natDigitsAux fuel n ≠ [] ∧ ∀ c ∈ natDigitsAux fuel n, c.isWhitespace = false := by
  intro fuel
  induction fuel with
  | zero => intro n h; exact absurd h (Nat.not_lt_zero n)
  | succ fuel ih =>
    intro n h
    simp only [natDigitsAux]
    split
    · rename_i h10
      refine ⟨by simp, ?_⟩
      intro c hc
      simp only [List.mem_singleton] at hc
      subst hc
      exact ofNat_digit_nonws n h10
    · rename_i h10
      have hdiv : n / 10 < fuel := by
        have h1 : n / 10 < n := Nat.div_lt_self (by omega) (by omega)
        omega
      obtain ⟨hne, hall⟩ := ih (n / 10) hdiv
      refine ⟨by simp, ?_⟩
      intro c hc
      rw [List.mem_append] at hc
      rcases hc with hc | hc
      · exact hall c hc
      · simp only [List.mem_singleton] at hc
        subst hc
        exact ofNat_digit_nonws (n % 10) (Nat.mod_lt n (by omega))

theorem strData_append (a b : String) : (a ++ b).data = a.data ++ b.data := rfl

theorem jsTrim_digits_front (n : Nat) (x : String) :
    (jsTrim (natToString n ++ " " ++ x)).data
      = natDigitsAux (n + 1) n ++ trimRightL (' ' :: x.data) := by
  obtain ⟨hne, hall⟩ := natDigitsAux_nonws (n + 1) n (by omega)
  have hdata : (natToString n ++ " " ++ x).data
      = natDigitsAux (n + 1) n ++ (' ' :: x.data) := by
    rw [strData_append, strData_append, List.append_assoc]
    rfl
  show trimRightL ((natToString n ++ " " ++ x).data.dropWhile Char.isWhitespace) = _
  rw [hdata]
  cases hD : natDigitsAux (n + 1) n with
  | nil => exact absurd hD hne
  | cons c D =>
    have hcnws : c.isWhitespace = false := hall c (by rw [hD]; simp)
    rw [List.cons_append, List.dropWhile_cons, if_neg (by simp [hcnws]), ← List.cons_append]
    rw [← hD]
    exact trimRightL_append_all_nonws _ _ hall

theorem summary_ne_empty (n : Nat) (x : String) :
    ¬(jsTrim (natToString n ++ " " ++ x) = "") := by
  intro h
  have hd := congrArg String.data h
  rw [jsTrim_digits_front] at hd
  obtain ⟨hne, -⟩ := natDigitsAux_nonws (n + 1) n (by omega)
  exact hne (List.append_eq_nil.mp hd).1

theorem isPrefixOf_append_self (p l : List Char) : p.isPrefixOf (p ++ l) = true := by
  induction p with
  | nil => simp [List.isPrefixOf]
  | cons c t ih => simp [List.isPrefixOf, ih]

theorem listContains_nil_left (s : List Char) : listContains [] s = true := by
  cases s <;> simp [listContains, List.isPrefixOf]

theorem listContains_of_isPrefixOf (p s : List Char) (h : p.isPrefixOf s = true) :
    listContains p s = true := by
  cases s with
  | nil =>
    cases p with
    | nil => rfl
    | cons c t => simp [List.isPrefixOf] at h
  | cons c t => simp [listContains, h]

theorem listContains_append_right (a p : List Char) : listContains p (a ++ p) = true := by
  induction a with
  | nil =>
    refine listContains_of_isPrefixOf _ _ ?_
    have h0 := isPrefixOf_append_self p []
    rw [List.append_nil] at h0
    exact h0
  | cons c a ih => simp [listContains, ih]

theorem hasWordAux_of_wordAt (w : List Char) (prev : Option Char) (s : List Char)
    (h : wordAt w prev s = true) : hasWordAux w prev s = true := by
  cases s <;> simp [hasWordAux, h]

theorem hasWordAux_at_head (w rest : List Char)
    (hrest : rest = [] ∨ ∃ r, rest = ' ' :: r) :
    hasWordAux w none (w ++ rest) = true := by
  refine hasWordAux_of_wordAt w none (w ++ rest) ?_
  unfold wordAt
  rw [isPrefixOf_append_self, List.drop_left]
  rcases hrest with h | ⟨r, h⟩ <;> subst h <;> simp [isWordChar]

theorem hasWholeWord_jsTrim_status (n : Nat) (x : String) :
    hasWholeWord (jsTrim (natToString n ++ " " ++ x)) (natToString n) = true := by
  unfold hasWholeWord
  rw [jsTrim_digits_front]
  exact hasWordAux_at_head _ _ (trimRightL_cons_shape ' ' x.data)

theorem httpErrorSummary_ne_empty (n : Nat) (a b : String) :
    ¬(httpErrorSummary n a b = "") := by
  unfold httpErrorSummary
  split <;> exact summary_ne_empty n _

theorem hasWholeWord_summary_status (n : Nat) (a b : String) :
    hasWholeWord (httpErrorSummary n a b) (natToString n) = true := by
  unfold httpErrorSummary
  split <;> exact hasWholeWord_jsTrim_status n _

theorem contains500_of_summary (a b : String) :
    containsSubstr (httpErrorSummary 500 a b) "500" = true := by
  unfold httpErrorSummary containsSubstr
  have h5 : ("500" : String).data = ['5', '0', '0'] := rfl
  split <;>
  · rw [jsTrim_digits_front, h5]
    exact listContains_of_isPrefixOf _ _ (isPrefixOf_append_self _ _)

theorem snippet_contained_of_summary (n : Nat) (x : String) :
    containsSubstr (jsTrim (natToString n ++ " " ++ x)) (jsTrim x) = true := by
  unfold containsSubstr
  rw [jsTrim_digits_front]
  show listContains (trimRightL (x.data.dropWhile Char.isWhitespace)) _ = true
  obtain ⟨pre, hpre⟩ := trimRightL_suffix_dropWhile x.data
  cases h : trimRightL x.data with
  | nil =>
    have hT : trimRightL (x.data.dropWhile Char.isWhitespace) = [] :=
      (List.append_eq_nil.mp (h ▸ hpre).symm).2
    rw [hT]
    exact listContains_nil_left _
  | cons a as =>
    have hsp : trimRightL (' ' :: x.data) = ' ' :: a :: as := by
      simp only [trimRightL, h]
    have hx : a :: as = pre ++ trimRightL (x.data.dropWhile Char.isWhitespace) :=
      h.symm.trans hpre
    rw [hsp, hx]
    have hassoc : natDigitsAux (n + 1) n
          ++ ' ' :: (pre ++ trimRightL (x.data.dropWhile Char.isWhitespace))
        = (natDigitsAux (n + 1) n ++ ' ' :: pre)
            ++ trimRightL (x.data.dropWhile Char.isWhitespace) := by
      simp [List.append_assoc]
    rw [hassoc]
    exact listContains_append_right _ _

theorem surfaceCaughtError_eq (msg apiKey : String) (hne : ¬(msg = "")) :
    surfaceCaughtError msg apiKey =
      if (hasWholeWord msg "401" || hasWholeWord msg "403") = true ∧ apiKey = "" then
        unauthorizedHintError
      else msg := by
  unfold surfaceCaughtError
  rw [if_neg hne]

theorem completeLoad_httpErr_state (nb apiKey : String) (status : Nat)
    (statusText bodyText : String) (st : LoaderState)
    (hscheme : containsSubstr nb "://" = true)
    (hsec : ¬(strStartsWith nb "https://" = false ∧ isLocalhostBase nb = false))
    (hm : st.isMounted = true) (hl : st.latestReasoningBase = nb) :
    (completeLoad nb apiKey (FetchSpec.httpErr status statusText bodyText)
        st).state.customModelsError
      = some (surfaceCaughtError (httpErrorSummary status statusText bodyText) apiKey) ∧
    (completeLoad nb apiKey (FetchSpec.httpErr status statusText bodyText)
        st).state.customModelOptions = [] := by
  unfold completeLoad
  rw [if_neg (by simp [hscheme]), if_neg hsec]
  dsimp only []
  rw [applyGuarded_of_guard _ _ _ hm hl]
  exact ⟨(applyFinally_fields nb _).2.1, (applyFinally_fields nb _).1⟩

theorem completeLoad_netErr_state (nb apiKey msg : String) (st : LoaderState)
    (hscheme : containsSubstr nb "://" = true)
    (hsec : ¬(strStartsWith nb "https://" = false ∧ isLocalhostBase nb = false))
    (hm : st.isMounted = true) (hl : st.latestReasoningBase = nb) :
    (completeLoad nb apiKey (FetchSpec.netErr msg) st).state.customModelsError
      = some (surfaceCaughtError msg apiKey) ∧
    (completeLoad nb apiKey (FetchSpec.netErr msg) st).state.customModelOptions = [] := by
  unfold completeLoad
  rw [if_neg (by simp [hscheme]), if_neg hsec]
  dsimp only []
  rw [applyGuarded_of_guard _ _ _ hm hl]
  exact ⟨(applyFinally_fields nb _).2.1, (applyFinally_fields nb _).1⟩

/-- C5 counterexample: a 500 response whose body contains "401" as a word,
with no API key resolved, surfaces the add-an-API-key hint instead of an
error built from the status code and body snippet; in particular the
surfaced error does not contain "500". -/
theorem c5_counterexample :
    (completeLoad "https://api.example.com/v1" ""
        (FetchSpec.httpErr 500 "Internal Server Error" "401")
        (probeState "https://api.example.com/v1")).state.customModelsError
      = some unauthorizedHintError ∧
    containsSubstr unauthorizedHintError "500" = false :=
  ⟨by decide, by decide⟩

/-- C5 (amended): for a non-2xx response, (i) when no API key was resolved
and the status is 401 or 403 the surfaced error is the add-an-API-key hint
(the built summary starts with the status digits, so the word test always
fires); (ii) when a key was resolved, or the built summary does not contain
401 or 403 as a whole word, the surfaced error is exactly the trimmed
"status + up-to-200-chars-of-body" summary (status text when the body is
empty); (iii) a 500 summary always contains "500" and the trimmed body
snippet. -/
theorem c5_amended_http_error_surfacing :
    (∀ nb apiKey status statusText bodyText (st : LoaderState),
        containsSubstr nb "://" = true →
        ¬(strStartsWith nb "https://" = false ∧ isLocalhostBase nb = false) →
        st.isMounted = true → st.latestReasoningBase = nb →
        (status = 401 ∨ status = 403) → apiKey = "" →
        (completeLoad nb apiKey (FetchSpec.httpErr status statusText bodyText)
            st).state.customModelsError = some unauthorizedHintError) ∧
    (∀ nb apiKey status statusText bodyText (st : LoaderState),
        containsSubstr nb "://" = true →
        ¬(strStartsWith nb "https://" = false ∧ isLocalhostBase nb = false) →
        st.isMounted = true → st.latestReasoningBase = nb →
        (¬(apiKey = "") ∨
          (hasWholeWord (httpErrorSummary status statusText bodyText) "401" ||
            hasWholeWord (httpErrorSummary status statusText bodyText) "403") = false) →
        (completeLoad nb apiKey (FetchSpec.httpErr status statusText bodyText)
            st).state.customModelsError
          = some (httpErrorSummary status statusText bodyText)) ∧
    (∀ statusText bodyText,
        containsSubstr (httpErrorSummary 500 statusText bodyText) "500" = true ∧
        containsSubstr (httpErrorSummary 500 statusText bodyText)
          (jsTrim (jsSlice200 bodyText)) = true) := by
  refine ⟨?_, ?_, ?_⟩
  · intro nb apiKey status statusText bodyText st hscheme hsec hm hl hstatus hkey
    rw [(completeLoad_httpErr_state nb apiKey status statusText bodyText st
      hscheme hsec hm hl).1]
    rw [surfaceCaughtError_eq _ _ (httpErrorSummary_ne_empty status statusText bodyText)]
    have hword : (hasWholeWord (httpErrorSummary status statusText bodyText) "401" ||
        hasWholeWord (httpErrorSummary status statusText bodyText) "403") = true := by
      rcases hstatus with h | h <;> subst h
      · have h4 := hasWholeWord_summary_status 401 statusText bodyText
        rw [show natToString 401 = "401" from rfl] at h4
        simp [h4]
      · have h4 := hasWholeWord_summary_status 403 statusText bodyText
        rw [show natToString 403 = "403" from rfl] at h4
        simp [h4]
    rw [if_pos ⟨hword, hkey⟩]
  · intro nb apiKey status statusText bodyText st hscheme hsec hm hl hside
    rw [(completeLoad_httpErr_state nb apiKey status statusText bodyText st
      hscheme hsec hm hl).1]
    rw [surfaceCaughtError_eq _ _ (httpErrorSummary_ne_empty status statusText bodyText)]
    rcases hside with hside | hside
    · rw [if_neg (fun hc => hside hc.2)]
    · rw [if_neg (fun hc => by rw [hside] at hc; exact Bool.false_ne_true hc.1)]
  · intro statusText bodyText
    refine ⟨contains500_of_summary statusText bodyText, ?_⟩
    unfold httpErrorSummary
    split
    · rename_i hb
      rw [hb]
      exact listContains_nil_left _
    · exact snippet_contained_of_summary 500 (jsSlice200 bodyText)

theorem c5_amended_http_error_surfacing_witness :
    (completeLoad "https://api.example.com/v1" ""
        (FetchSpec.httpErr 401 "Unauthorized" "")
        (probeState "https://api.example.com/v1")).state.customModelsError
      = some unauthorizedHintError ∧
    (completeLoad "https://api.example.com/v1" "sk-test"
        (FetchSpec.httpErr 500 "Internal Server Error" "boom")
        (probeState "https://api.example.com/v1")).state.customModelsError
      = some (httpErrorSummary 500 "Internal Server Error" "boom") ∧
    containsSubstr (httpErrorSummary 500 "Internal Server Error" "boom") "500" = true :=
  ⟨c5_amended_http_error_surfacing.1 "https://api.example.com/v1" "" 401 "Unauthorized" ""
      (probeState "https://api.example.com/v1") (by decide) (by decide) rfl rfl
      (Or.inl rfl) rfl,
   c5_amended_http_error_surfacing.2.1 "https://api.example.com/v1" "sk-test" 500
      "Internal Server Error" "boom" (probeState "https://api.example.com/v1")
      (by decide) (by decide) rfl rfl (Or.inl (by decide)),
   (c5_amended_http_error_surfacing.2.2 "Internal Server Error" "boom").1⟩

/-- C10: the add-an-API-key hint is decided by the caught error message, not
the response status: for any thrown-error message it is surfaced exactly
when no API key was resolved and the message contains 401 or 403 as a whole
word; a 500 response whose body mentions " 401 " with no key yields the
hint, while a 401 response with a key present yields the raw message. -/
theorem c10_hint_is_message_based :
    (∀ nb apiKey msg (st : LoaderState),
        containsSubstr nb "://" = true →
        ¬(strStartsWith nb "https://" = false ∧ isLocalhostBase nb = false) →
        st.isMounted = true → st.latestReasoningBase = nb → ¬(msg = "") →
        (completeLoad nb apiKey (FetchSpec.netErr msg) st).state.customModelsError
          = some (if (hasWholeWord msg "401" || hasWholeWord msg "403") = true ∧ apiKey = ""
              then unauthorizedHintError else msg)) ∧
    (completeLoad "https://api.example.com/v1" ""
        (FetchSpec.httpErr 500 "Internal Server Error" "upstream 401 rejected")
        (probeState "https://api.example.com/v1")).state.customModelsError
      = some unauthorizedHintError ∧
    (completeLoad "https://api.example.com/v1" "sk-test"
        (FetchSpec.httpErr 401 "Unauthorized" "")
        (probeState "https://api.example.com/v1")).state.customModelsError
      = some "401 Unauthorized" := by
  refine ⟨?_, by decide, by decide⟩
  intro nb apiKey msg st hscheme hsec hm hl hne
  rw [(completeLoad_netErr_state nb apiKey msg st hscheme hsec hm hl).1]
  rw [surfaceCaughtError_eq _ _ hne]

theorem c10_hint_is_message_based_witness :
    (completeLoad "https://api.example.com/v1" "" (FetchSpec.netErr "socket saw 403 reply")
        (probeState "https://api.example.com/v1")).state.customModelsError
      = some (if (hasWholeWord "socket saw 403 reply" "401" ||
            hasWholeWord "socket saw 403 reply" "403") = true ∧ ("" : String) = ""
          then unauthorizedHintError else "socket saw 403 reply") :=
  c10_hint_is_message_based.1 "https://api.example.com/v1" "" "socket saw 403 reply"
    (probeState "https://api.example.com/v1") (by decide) (by decide) rfl rfl (by decide)

theorem completeLoad_ok_state (nb apiKey : String) (parsed : Option Json) (st : LoaderState)
    (hscheme : containsSubstr nb "://" = true)
    (hsec : ¬(strStartsWith nb "https://" = false ∧ isLocalhostBase nb = false))
    (hm : st.isMounted = true) (hl : st.latestReasoningBase = nb) :
    (completeLoad nb apiKey (FetchSpec.ok parsed) st).state.customModelsError = none ∧
    (completeLoad nb apiKey (FetchSpec.ok parsed) st).state.customModelOptions
      = modelsFromPayload parsed ∧
    (completeLoad nb apiKey (FetchSpec.ok parsed) st).state.lastLoadedBase = some nb ∧
    (completeLoad nb apiKey (FetchSpec.ok parsed) st).state.reasoningModel =
      (if 0 < (modelsFromPayload parsed).length ∧
          (modelsFromPayload parsed).any
            (fun m => Json.strictEq m.value st.reasoningModel) = false then
        ((modelsFromPayload parsed).headD default).value
      else st.reasoningModel) := by
  unfold completeLoad
  rw [if_neg (by simp [hscheme]), if_neg hsec]
  dsimp only []
  rw [applyGuarded_of_guard _ _ _ hm hl]
  have hfin := applyFinally_fields nb
  refine ⟨?_, ?_, ?_, ?_⟩
  · rw [(hfin _).2.1]
  · rw [(hfin _).1]
    dsimp only []
    split <;> rfl
  · rw [(hfin _).2.2.2.1]
  · rw [(hfin _).2.2.1]
    dsimp only []
    split <;> rfl

/-- C7: on a successful, non-stale, still-mounted load, if the mapped list
is non-empty and no entry's value strictly equals the currently selected
reasoning model, the first entry's value is selected; if some entry matches,
or the list is empty, the selection is unchanged. -/
theorem c7_auto_selection (nb apiKey : String) (parsed : Option Json) (st : LoaderState)
    (hscheme : containsSubstr nb "://" = true)
    (hsec : ¬(strStartsWith nb "https://" = false ∧ isLocalhostBase nb = false))
    (hm : st.isMounted = true) (hl : st.latestReasoningBase = nb) :
    (¬(modelsFromPayload parsed = []) →
      (modelsFromPayload parsed).any
          (fun m => Json.strictEq m.value st.reasoningModel) = false →
      (completeLoad nb apiKey (FetchSpec.ok parsed) st).state.reasoningModel
        = ((modelsFromPayload parsed).headD default).value) ∧
    ((modelsFromPayload parsed).any
          (fun m => Json.strictEq m.value st.reasoningModel) = true →
      (completeLoad nb apiKey (FetchSpec.ok parsed) st).state.reasoningModel
        = st.reasoningModel) ∧
    (modelsFromPayload parsed = [] →
      (completeLoad nb apiKey (FetchSpec.ok parsed) st).state.reasoningModel
        = st.reasoningModel) := by
  have hok := (completeLoad_ok_state nb apiKey parsed st hscheme hsec hm hl).2.2.2
  refine ⟨?_, ?_, ?_⟩
  · intro hne hnone
    rw [hok, if_pos ⟨List.length_pos.mpr hne, hnone⟩]
  · intro hsome
    rw [hok, if_neg (fun hc => by rw [hsome] at hc; exact Bool.false_ne_true hc.2.symm)]
  · intro hnil
    rw [hok, if_neg (fun hc => by rw [hnil] at hc; simp at hc)]

theorem c7_auto_selection_witness :
    (completeLoad "https://api.example.com/v1" ""
        (FetchSpec.ok (some (Json.obj [("data",
          Json.arr [Json.obj [("id", Json.str "m1"), ("owned_by", Json.str "OpenAI")]])])))
        (probeState "https://api.example.com/v1")).state.reasoningModel
      = ((modelsFromPayload (some (Json.obj [("data",
          Json.arr [Json.obj [("id", Json.str "m1"), ("owned_by", Json.str "OpenAI")]])]))).headD
            default).value :=
  (c7_auto_selection "https://api.example.com/v1" ""
      (some (Json.obj [("data",
        Json.arr [Json.obj [("id", Json.str "m1"), ("owned_by", Json.str "OpenAI")]])]))
      (probeState "https://api.example.com/v1") (by decide) (by decide) rfl rfl).1
    (fun h => absurd (congrArg List.length h) (by decide)) (by decide)

theorem find?_eq_of_earlier_false {α : Type} (p : α → Bool) :
    ∀ (l : List α) (i : Nat) (hi : i < l.length),
      p (l.get ⟨i, hi⟩) = true →
      (∀ j (hj : j < l.length), j < i → p (l.get ⟨j, hj⟩) = false) →
      l.find? p = some (l.get ⟨i, hi⟩) := by
  intro l
  induction l with
  | nil =>
    intro i hi
    simp at hi
  | cons a t ih =>
    intro i hi hp hearlier
    cases i with
    | zero =>
      simp only [List.get] at hp
      simp [List.find?, hp]
    | succ i =>
      have ha : p a = false := by
        have h0 := hearlier 0 (by simp) (by omega)
        simpa using h0
      have hi2 : i < t.length := by simpa using hi
      have hrec := ih i hi2 (by simpa using hp)
        (fun j hj hji => by
          have := hearlier (j + 1) (by simpa using hj) (by omega)
          simpa using this)
      simp only [List.find?, ha]
      simpa using hrec

theorem rawModelsOf_data (payload : Json) (xs : List Json)
    (h : payload.getField "data" = some (Json.arr xs)) : rawModelsOf payload = xs := by
  unfold rawModelsOf
  rw [h]

theorem rawModelsOf_models (payload : Json) (ys : List Json)
    (h1 : jsIsArray (payload.getField "data") = false)
    (h2 : payload.getField "models" = some (Json.arr ys)) : rawModelsOf payload = ys := by
  unfold rawModelsOf
  split
  · rename_i xs heq
    rw [heq] at h1
    simp [jsIsArray] at h1
  · rw [h2]

theorem rawModelsOf_neither (payload : Json)
    (h1 : jsIsArray (payload.getField "data") = false)
    (h2 : jsIsArray (payload.getField "models") = false) : rawModelsOf payload = [] := by
  unfold rawModelsOf
  split
  · rename_i xs heq
    rw [heq] at h1
    simp [jsIsArray] at h1
  · split
    · rename_i ys heq
      rw [heq] at h2
      simp [jsIsArray] at h2
    · rfl

/-- C6: a malformed JSON body is treated as the empty object and raises no
error; the raw model list comes from an array-valued `data` field, else an
array-valued `models` field, else is empty; an entry lacking both `id` and
`name` is dropped; a kept entry's icon is derived from its `owned_by` string
by the ordered case-insensitive rules, first match wins, none on no match or
missing/blank `owned_by`. -/
theorem c6_parse_and_map :
    (modelsFromPayload none = [] ∧
      ∀ nb apiKey (st : LoaderState),
        containsSubstr nb "://" = true →
        ¬(strStartsWith nb "https://" = false ∧ isLocalhostBase nb = false) →
        st.isMounted = true → st.latestReasoningBase = nb →
        (completeLoad nb apiKey (FetchSpec.ok none) st).state.customModelsError = none) ∧
    (∀ payload xs, payload.getField "data" = some (Json.arr xs) →
        modelsFromPayload (some payload) = xs.filterMap mapItem) ∧
    (∀ payload ys, jsIsArray (payload.getField "data") = false →
        payload.getField "models" = some (Json.arr ys) →
        modelsFromPayload (some payload) = ys.filterMap mapItem) ∧
    (∀ payload, jsIsArray (payload.getField "data") = false →
        jsIsArray (payload.getField "models") = false →
        modelsFromPayload (some payload) = []) ∧
    (∀ item, item.getField "id" = none → item.getField "name" = none →
        mapItem item = none) ∧
    (∀ item opt, mapItem item = some opt →
        opt.icon = resolveOwnedByIcon (ownedByOf item) ∧ opt.ownedBy = ownedByOf item) ∧
    (∀ s, ¬(s = "") → ∀ i (hi : i < OWNED_BY_ICON_RULES.length),
        ruleMatches (OWNED_BY_ICON_RULES.get ⟨i, hi⟩).1 (jsToLower s) = true →
        (∀ j (hj : j < OWNED_BY_ICON_RULES.length), j < i →
          ruleMatches (OWNED_BY_ICON_RULES.get ⟨j, hj⟩).1 (jsToLower s) = false) →
        resolveOwnedByIcon (some s)
          = some (ICON_BASE_PATH ++ "/" ++ (OWNED_BY_ICON_RULES.get ⟨i, hi⟩).2 ++ ".svg")) ∧
    (∀ s, (∀ r ∈ OWNED_BY_ICON_RULES, ruleMatches r.1 (jsToLower s) = false) →
        resolveOwnedByIcon (some s) = none) ∧
    resolveOwnedByIcon none = none := by
  refine ⟨⟨rfl, ?_⟩, ?_, ?_, ?_, ?_, ?_, ?_, ?_, rfl⟩
  · intro nb apiKey st hscheme hsec hm hl
    exact (completeLoad_ok_state nb apiKey none st hscheme hsec hm hl).1
  · intro payload xs h
    simp only [modelsFromPayload, Option.getD]
    rw [rawModelsOf_data payload xs h]
  · intro payload ys h1 h2
    simp only [modelsFromPayload, Option.getD]
    rw [rawModelsOf_models payload ys h1 h2]
  · intro payload h1 h2
    simp only [modelsFromPayload, Option.getD]
    rw [rawModelsOf_neither payload h1 h2]
    rfl
  · intro item h1 h2
    simp [mapItem, h1, h2, jsOr, jsTruthy]
  · intro item opt h
    simp only [mapItem] at h
    by_cases hv : jsTruthy (jsOr (item.getField "id") (item.getField "name")) = false
    · rw [if_pos hv] at h
      cases h
    · rw [if_neg hv] at h
      cases h
      exact ⟨rfl, rfl⟩
  · intro s hs i hi hmatch hearlier
    simp only [resolveOwnedByIcon]
    rw [if_neg hs]
    rw [find?_eq_of_earlier_false (fun r => ruleMatches r.1 (jsToLower s))
      OWNED_BY_ICON_RULES i hi hmatch hearlier]
  · intro s hall
    by_cases hs : s = ""
    · simp only [resolveOwnedByIcon]
      rw [if_pos hs]
    · simp only [resolveOwnedByIcon]
      rw [if_neg hs]
      rw [List.find?_eq_none.mpr (fun r hr => by simp [hall r hr])]

theorem c6_parse_and_map_witness :
    modelsFromPayload (some (Json.obj [("data", Json.arr [Json.num 1])]))
      = [Json.num 1].filterMap mapItem ∧
    mapItem (Json.obj []) = none ∧
    resolveOwnedByIcon (some "Anthropic")
      = some (ICON_BASE_PATH ++ "/"
          ++ (OWNED_BY_ICON_RULES.get ⟨2, by decide⟩).2 ++ ".svg") ∧
    (completeLoad "https://api.example.com/v1" "" (FetchSpec.ok none)
        (probeState "https://api.example.com/v1")).state.customModelsError = none :=
  ⟨c6_parse_and_map.2.1 (Json.obj [("data", Json.arr [Json.num 1])]) [Json.num 1] rfl,
   c6_parse_and_map.2.2.2.2.1 (Json.obj []) rfl rfl,
   c6_parse_and_map.2.2.2.2.2.2.1 "Anthropic" (by decide) 2 (by decide) (by decide)
     (fun j hj hji => by
       interval_cases j
       · exact (by decide :
           ruleMatches ["openai", "system", "default", "gpt", "davinci"]
             (jsToLower "Anthropic") = false)
       · exact (by decide :
           ruleMatches ["azure"] (jsToLower "Anthropic") = false)),
   c6_parse_and_map.1.2 "https://api.example.com/v1" "" (probeState "https://api.example.com/v1")
     (by decide) (by decide) rfl rfl⟩

end OpenWhispr
